import Mathlib

/-!
Shallow embedding of the signal-generation and position-lifecycle engine of the
trading-system repository (scripts `2_screener.py`, `3_analyzer.py`,
`5_tracker.py`).  All monetary quantities are modelled as exact rationals;
Python `int(x)` truncation and `round(x, 2)` (round-half-to-even) are modelled
explicitly.  File reads/writes are modelled as explicit parameters and results:
a pandas DataFrame becomes a `List` of records, processed in row order.
-/

namespace TradingSystem

/-- Python `int(x)` conversion: truncation toward zero. -/

def pyInt (q : ℚ) : ℤ := if 0 ≤ q then ⌊q⌋ else ⌈q⌉

/-- Python `round(x)` to the nearest integer, ties going to the even integer. -/

def pyRoundInt (q : ℚ) : ℤ :=
  if q - ⌊q⌋ < 1/2 then ⌊q⌋
  else if 1/2 < q - ⌊q⌋ then ⌊q⌋ + 1
  else if ⌊q⌋ % 2 = 0 then ⌊q⌋ else ⌊q⌋ + 1

/-- Python `round(x, 2)`: round to two decimal places, ties to even. -/

def pyRound2 (q : ℚ) : ℚ := (pyRoundInt (q * 100) : ℚ) / 100

/-!
### Screener (`2_screener.py`)

`layer3_filter` receives the rows surviving Layers 1 and 2.  Only the columns
that Layer 3 reads are modelled.
-/

/-- One input row of `layer3_filter` (a stock surviving Layers 1 and 2):
columns `Symbol`, `Close`, `High_20D`, `MA20`, `Support` of the snapshot table. -/

structure Row where
  symbol : String
  close : ℚ
  high20 : ℚ
  ma20 : ℚ
  support : ℚ
deriving DecidableEq

/-- A row of Layer 3's output with the derived columns
`Entry`, `SL`, `Risk_Per_Share`, `Target`, `RR`, `Risk_Pct`. -/

structure L3Row where
  symbol : String
  entry : ℚ
  sl : ℚ
  riskPerShare : ℚ
  target : ℚ
  rr : ℚ
  riskPct : ℚ
deriving DecidableEq

/-- Layer-3 thresholds: `max_extension`, `min_rr`, and the risk-percent ceiling
(`12` in testing mode, `5` otherwise, from the two branches of the source). -/

structure Layer3Params where
  maxExtension : ℚ
  minRR : ℚ
  riskPctCeiling : ℚ
deriving DecidableEq

/-- The `testing` profile's Layer-3 thresholds (`max_extension = 25`,
`min_rr = 1.2`) together with the testing-mode risk ceiling `12`. -/

def testingL3 : Layer3Params := { maxExtension := 25, minRR := 6/5, riskPctCeiling := 12 }

/-- The derived-column computation of `layer3_filter`:
`Entry = Close`, `SL = Support * 0.995`, `Risk_Per_Share = Entry - SL`,
`Target = Entry + 2 * Risk_Per_Share`, `RR = (Target - Entry) / Risk_Per_Share`,
`Risk_Pct = Risk_Per_Share / Entry * 100`.  Rational division by zero yields
`0`, mirroring that a pandas `0/0` produces `NaN`, which every subsequent
`RR >= min_rr` comparison rejects just as `0` does for a positive `min_rr`. -/

def deriveL3 (r : Row) : L3Row :=
  let entry := r.close
  let sl := r.support * (995/1000)
  let riskPerShare := entry - sl
  let target := entry + 2 * riskPerShare
  let rr := (target - entry) / riskPerShare
  let riskPct := riskPerShare / entry * 100
  { symbol := r.symbol, entry := entry, sl := sl, riskPerShare := riskPerShare,
    target := target, rr := rr, riskPct := riskPct }

/-- `layer3_filter`: breakout filter (`Close > High_20D`), extension filter
(percent above `MA20` at most `max_extension`), derived columns, `RR >= min_rr`
filter, then the mode-dependent `Risk_Pct` ceiling.  The source has no guard on
the sign of `Risk_Per_Share`. -/

def layer3_filter (F : Layer3Params) (rows : List Row) : List L3Row :=
  let afterBreakout := rows.filter (fun r => r.high20 < r.close)
  let afterExtension := afterBreakout.filter
    (fun r => (r.close - r.ma20) / r.ma20 * 100 ≤ F.maxExtension)
  let derived := afterExtension.map deriveL3
  let afterRR := derived.filter (fun r => F.minRR ≤ r.rr)
  afterRR.filter (fun r => r.riskPct ≤ F.riskPctCeiling)

/-- A post-Layer-2 row whose rolling support lies far above the close, so that
`Entry - SL` is negative. -/

def negRiskRow : Row := { symbol := "NEG", close := 100, high20 := 50, ma20 := 100, support := 200 }

/-- A genuine breakout row (`Close = 100` above `High_20D = 90`, support 90),
whose derived risk per share is positive. -/
def okRow : Row := { symbol := "OK", close := 100, high20 := 90, ma20 := 100, support := 90 }

/-!
### Analyzer (`3_analyzer.py`)

`RISK_PER_TRADE` and `MAX_POSITION_PCT` (module-level constants read from a
config file) are passed as parameters `RPT` and `MPP`.
-/

/-- `calculate_position_size(entry, sl, capital)`: risk-based quantity with a
position-value cap.  `int(...)` is Python truncation (`pyInt`). -/

def calculate_position_size (RPT MPP entry sl capital : ℚ) : ℤ × ℚ :=
  let max_risk_amount := capital * RPT
  let risk_per_share := entry - sl
  if risk_per_share ≤ 0 then (0, 0)
  else
    let qty := pyInt (max_risk_amount / risk_per_share)
    let position_value := (qty : ℚ) * entry
    let max_position := capital * MPP
    if max_position < position_value then
      let qty2 := pyInt (max_position / entry)
      (qty2, (qty2 : ℚ) * entry)
    else (qty, position_value)

/-- `calculate_charges(position_value)`: two-sided brokerage, exchange charge,
GST, stamp duty, SEBI levy, STT and DP charge, rounded to two decimals. -/

def calculate_charges (position_value : ℚ) : ℚ :=
  let brokerage_buy := min (position_value * (5/10000)) 20
  let exchange_txn := position_value * (297/10000000)
  let gst := (brokerage_buy + exchange_txn) * (18/100)
  let stamp := position_value * (15/100000)
  let sebi := position_value * (1/1000000)
  let buy := brokerage_buy + exchange_txn + gst + stamp + sebi
  let brokerage_sell := min (position_value * (5/10000)) 20
  let stt := position_value * (1/1000)
  let exchange_txn_sell := position_value * (297/10000000)
  let gst_sell := (brokerage_sell + exchange_txn_sell) * (18/100)
  let dp := (185/10) * (118/100)
  let sell := brokerage_sell + stt + exchange_txn_sell + gst_sell + dp
  pyRound2 (buy + sell)

/-- One shortlist row as read by `generate_signals`: columns `Symbol`, `Entry`,
`SL`, `Target`, `RR`, `Risk_Pct`, `ATR`, `Mode`. -/

structure ShortRow where
  symbol : String
  entry : ℚ
  sl : ℚ
  target : ℚ
  rr : ℚ
  riskPct : ℚ
  atr : ℚ
  mode : String
deriving DecidableEq

/-- A trade signal as assembled by `generate_signals` (the `Date` column, a
constant per run, is omitted). -/

structure Signal where
  stock : String
  entry : ℚ
  sl : ℚ
  t1 : ℚ
  t2 : ℚ
  rr : ℚ
  quantity : ℤ
  position : ℚ
  riskRs : ℚ
  riskPct : ℚ
  charges : ℚ
  breakeven : ℚ
  netExpectancyPct : ℚ
  atr : ℚ
  mode : String
deriving DecidableEq

/-- The body of the `generate_signals` loop for one row: `None` models
`continue` (zero quantity, or target below the cost-adjusted minimum). -/

def signal_of_row (RPT MPP capital : ℚ) (row : ShortRow) : Option Signal :=
  let qp := calculate_position_size RPT MPP row.entry row.sl capital
  let qty := qp.1
  let position := qp.2
  if qty = 0 then none
  else
    let charges := calculate_charges position
    let breakeven_pct := charges / position * 100
    let min_target := row.entry * (1 + breakeven_pct / 100 + 2/100)
    if row.target < min_target then none
    else
      let expected_profit := (row.target - row.entry) * (qty : ℚ)
      let net_profit := expected_profit - charges
      let net_expectancy_pct := net_profit / position * 100
      let t2 := pyRound2 (row.target + (3/2) * row.atr)
      some { stock := row.symbol, entry := row.entry, sl := row.sl,
             t1 := row.target, t2 := t2, rr := row.rr, quantity := qty,
             position := position,
             riskRs := pyRound2 ((row.entry - row.sl) * (qty : ℚ)),
             riskPct := row.riskPct, charges := charges,
             breakeven := pyRound2 min_target,
             netExpectancyPct := pyRound2 net_expectancy_pct,
             atr := row.atr, mode := row.mode }

/-- `generate_signals(df)`: the row loop with `continue`, as a `filterMap`. -/

def generate_signals (RPT MPP capital : ℚ) (rows : List ShortRow) : List Signal :=
  rows.filterMap (signal_of_row RPT MPP capital)

/-- The shortlist row used to witness signal generation. -/

def row0 : ShortRow :=
  { symbol := "AAA", entry := 100, sl := 95, target := 110, rr := 2,
    riskPct := 5, atr := 4, mode := "standard" }

/-- The signal `generate_signals` produces from `row0` with capital 100000,
1 percent risk per trade, 10 percent position cap. -/

def sig0 : Signal :=
  { stock := "AAA", entry := 100, sl := 95, t1 := 110, t2 := 116, rr := 2,
    quantity := 100, position := 10000, riskRs := 500, riskPct := 5,
    charges := 1146/25, breakeven := 5123/50, netExpectancyPct := 477/50,
    atr := 4, mode := "standard" }

/-!
### Signal ranking and capacity allocation (`3_analyzer.py`, `select_top_trades` and `main`)
-/

/-- The sort key of `sort_values(by=["RR", "Net_Expectancy_Pct"], ascending=[False, False])`:
`rankLE a b` holds when `a` sorts no later than `b` (higher RR first, ties by
higher net expectancy percent first). -/

def rankLE (a b : Signal) : Prop :=
  b.rr < a.rr ∨ (b.rr = a.rr ∧ b.netExpectancyPct ≤ a.netExpectancyPct)

instance : DecidableRel rankLE := fun a b =>
  inferInstanceAs (Decidable (b.rr < a.rr ∨ (b.rr = a.rr ∧ b.netExpectancyPct ≤ a.netExpectancyPct)))

instance : IsTotal Signal rankLE := ⟨fun a b => by
  unfold rankLE
  rcases lt_trichotomy a.rr b.rr with h | h | h
  · exact Or.inr (Or.inl h)
  · rcases le_total a.netExpectancyPct b.netExpectancyPct with hne | hne
    · exact Or.inr (Or.inr ⟨h, hne⟩)
    · exact Or.inl (Or.inr ⟨h.symm, hne⟩)
  · exact Or.inl (Or.inl h)⟩

instance : IsTrans Signal rankLE := ⟨fun a b c hab hbc => by
  unfold rankLE at hab hbc ⊢
  rcases hab with h1 | ⟨h1, h1n⟩ <;> rcases hbc with h2 | ⟨h2, h2n⟩
  · exact Or.inl (h2.trans h1)
  · exact Or.inl (h2.trans_lt h1)
  · exact Or.inl (h2.trans_eq h1)
  · exact Or.inr ⟨h2.trans h1, h2n.trans h1n⟩⟩

/-- `select_top_trades(signals, max_trades)`: pass through when within capacity,
otherwise sort by (RR desc, net expectancy desc) and keep the first
`max_trades`. -/

def select_top_trades (signals : List Signal) (max_trades : ℕ) : List Signal :=
  if signals.length ≤ max_trades then signals
  else (List.insertionSort rankLE signals).take max_trades

/-- The allocation step of the analyzer's `main`: `available = MAX_TRADES - active`;
when `available ≤ 0` the run stops and emits no signals, otherwise
`select_top_trades(signals, available)`. -/

def allocate (max_trades active : ℤ) (signals : List Signal) : List Signal :=
  let available := max_trades - active
  if available ≤ 0 then []
  else select_top_trades signals available.toNat

/-- A ranking stub signal carrying only the sort keys. -/

def mkSig (name : String) (rr ne : ℚ) : Signal :=
  { stock := name, entry := 0, sl := 0, t1 := 0, t2 := 0, rr := rr, quantity := 0,
    position := 0, riskRs := 0, riskPct := 0, charges := 0, breakeven := 0,
    netExpectancyPct := ne, atr := 0, mode := "standard" }

/-- Three candidate signals with distinct reward:risk ratios. -/

def sigs3 : List Signal := [mkSig "A" 3 1, mkSig "B" 2 1, mkSig "C" 1 1]

/-!
### Position lifecycle tracker (`5_tracker.py`)

The tracker table `trade_tracker.csv` is a `List Position` processed in row
order.  External effects are parameters: `today` (the run date string), `days`
(whole days held, from the row's entry date), and `prices` (the per-symbol
current-price fetch, `none` when the fetch fails).  `main` reads the table,
ingests the day's signals, refreshes prices, recomputes P&L and days held,
evaluates triggers, and writes the whole table back to the same file.
-/

/-- One row of `trade_tracker.csv`. -/

structure Position where
  date : String
  stock : String
  entry : ℚ
  sl : ℚ
  t1 : ℚ
  t2 : ℚ
  quantity : ℤ
  position : ℚ
  current : ℚ
  pnlRs : ℚ
  pnlPct : ℚ
  daysHeld : ℤ
  status : String
  notes : String
  atr : ℚ
  t1Hit : Bool
deriving DecidableEq

/-- A trigger action record `(Stock, Rule, Message)`. -/

structure Action where
  stock : String
  rule : String
  message : String
deriving DecidableEq

/-- The new-position row that `add_new_trades` builds from one signal row
(status `ACTIVE`, current price = entry, zero P&L, zero days held, flag off). -/

def signalToPosition (today : String) (s : Signal) : Position :=
  { date := today, stock := s.stock, entry := s.entry, sl := s.sl, t1 := s.t1,
    t2 := s.t2, quantity := s.quantity, position := s.position,
    current := s.entry, pnlRs := 0, pnlPct := 0, daysHeld := 0,
    status := "ACTIVE", notes := "", atr := s.atr, t1Hit := false }

/-- `add_new_trades(tracker)`: every row of today's signal file is appended to
the tracker unconditionally (the source has no key or duplicate check). -/

def add_new_trades (today : String) (signals : List Signal) (tracker : List Position) :
    List Position :=
  tracker ++ signals.map (signalToPosition today)

/-- One row of `update_current_prices`: only `ACTIVE` rows are refreshed; a
failed fetch (`none`) leaves the last known price. -/

def update_price_row (prices : String → Option ℚ) (p : Position) : Position :=
  if p.status = "ACTIVE" then
    match prices p.stock with
    | some c => { p with current := pyRound2 c }
    | none => p
  else p

/-- `update_current_prices(df)`. -/

def update_current_prices (prices : String → Option ℚ) (df : List Position) : List Position :=
  df.map (update_price_row prices)

/-- One row of `calculate_pnl`: P&L in currency and percent, recomputed for
every row and rounded to two decimals. -/

def calculate_pnl_row (p : Position) : Position :=
  { p with pnlRs := pyRound2 ((p.current - p.entry) * (p.quantity : ℚ)),
           pnlPct := pyRound2 ((p.current - p.entry) / p.entry * 100) }

/-- `calculate_pnl(df)`. -/

def calculate_pnl (df : List Position) : List Position :=
  df.map calculate_pnl_row

/-- One row of `update_days_held`: days held recomputed for `ACTIVE` rows from
the row's entry date. -/

def update_days_held_row (days : String → ℤ) (p : Position) : Position :=
  if p.status = "ACTIVE" then { p with daysHeld := days p.date } else p

/-- `update_days_held(df)`. -/

def update_days_held (days : String → ℤ) (df : List Position) : List Position :=
  df.map (update_days_held_row days)

/-- The body of the `check_triggers` loop for one row.  Non-`ACTIVE` rows are
not visited (returned unchanged with no actions).  For an `ACTIVE` row: the
stop-hit rule closes the position and `continue`s; otherwise the breakeven
lock, the once-only first-target rule (which ratchets the stop to
`max(SL, current - 1.5 * ATR)`), and the month-end advisory run in order, all
reading the row as it stood at the start of the loop iteration except that the
first-target rule raises the freshly written stop. -/

def step_position (p : Position) : Position × List Action :=
  if p.status = "ACTIVE" then
    if p.current ≤ p.sl then
      ({ p with status := "CLOSED" },
       [{ stock := p.stock, rule := "SL_HIT", message := "SL hit. EXIT." }])
    else
      let p1 := if 3 ≤ p.pnlPct ∧ p.sl < p.entry then { p with sl := p.entry } else p
      let a1 : List Action :=
        if 3 ≤ p.pnlPct ∧ p.sl < p.entry then
          [{ stock := p.stock, rule := "BREAKEVEN", message := "Move SL to Entry" }]
        else []
      let trail_sl := pyRound2 (p.current - (3/2) * p.atr)
      let p2 := if p.t1 ≤ p.current ∧ p.t1Hit = false then
          { p1 with t1Hit := true, sl := max p1.sl trail_sl }
        else p1
      let a2 : List Action :=
        if p.t1 ≤ p.current ∧ p.t1Hit = false then
          [{ stock := p.stock, rule := "T1_HIT", message := "T1 hit. Book 50 pct. Trail SL" }]
        else []
      let a3 : List Action :=
        if 25 ≤ p.daysHeld then
          [{ stock := p.stock, rule := "MONTH_END", message := "Prepare exit" }]
        else []
      (p2, a1 ++ a2 ++ a3)
  else (p, [])

/-- `check_triggers(df)`: the per-row rule evaluation over the whole table,
actions collected in row order. -/

def check_triggers (df : List Position) : List Action × List Position :=
  ((df.map (fun p => (step_position p).2)).flatten,
   df.map (fun p => (step_position p).1))

/-- Everything one tracker invocation does to one position already in the
merged table: price refresh, P&L, days held, then trigger evaluation. -/

def position_tick (days : String → ℤ) (prices : String → Option ℚ) (p : Position) :
    Position × List Action :=
  step_position (update_days_held_row days (calculate_pnl_row (update_price_row prices p)))

/-- The tracker's `main` without I/O: ingest today's signals, refresh prices,
recompute P&L and days held, check triggers.  The second component is the
table written back to `trade_tracker.csv` (the only table `main` writes). -/

def tick (today : String) (days : String → ℤ) (prices : String → Option ℚ)
    (signals : List Signal) (tracker : List Position) : List Action × List Position :=
  check_triggers (update_days_held days (calculate_pnl (update_current_prices prices
    (add_new_trades today signals tracker))))

/-- A default tick input (zero days, every price fetch failing). -/

def dummy_input : (String → ℤ) × (String → Option ℚ) := (fun _ => 0, fun _ => none)

/-- `run inputs p`: the position after a sequence of tracker ticks, each tick
described by its `(days, prices)` environment. -/

def run (inputs : List ((String → ℤ) × (String → Option ℚ))) (p : Position) : Position :=
  inputs.foldl (fun q dp => (position_tick dp.1 dp.2 q).1) p

/-- The first-target rule fires for `p` during a tick with environment
`(days, prices)`: the tick emits a `T1_HIT` action for this position. -/

def t1fires (days : String → ℤ) (prices : String → Option ℚ) (p : Position) : Prop :=
  "T1_HIT" ∈ ((position_tick days prices p).2).map Action.rule

/-- The first-target rule fires at step `k` of a tick sequence. -/

def t1fires_at (inputs : List ((String → ℤ) × (String → Option ℚ)))
    (p0 : Position) (k : ℕ) : Prop :=
  t1fires (inputs.getD k dummy_input).1 (inputs.getD k dummy_input).2
    (run (inputs.take k) p0)

/-- A tracked position used in the concrete tracker runs: `ACTIVE`, entry 100,
stop 95, first target 110, ATR 4, flag clear. -/

def posA : Position :=
  { date := "2026-10-01", stock := "XYZ", entry := 100, sl := 95, t1 := 110,
    t2 := 116, quantity := 100, position := 10000, current := 100, pnlRs := 0,
    pnlPct := 0, daysHeld := 3, status := "ACTIVE", notes := "", atr := 4,
    t1Hit := false }

/-- `posA` with its price already at the stop. -/

def pSL : Position := { posA with current := 90 }

/-- `posA` already closed. -/

def pClosed : Position := { posA with status := "CLOSED" }

/-- `posA` with the first-target flag already set. -/

def pT1 : Position := { posA with t1Hit := true }

/-- Two tick environments: day one the price jumps to 115 (above the 110
target), day two it rises further to 120. -/

def tick_inputs : List ((String → ℤ) × (String → Option ℚ)) :=
  [(fun _ => 5, fun _ => some 115), (fun _ => 6, fun _ => some 120)]

/-!
### Theorems
-/

/-- C3 (counter-evidence): `layer3_filter` has no `entry - stop <= 0` guard.  At a
concrete row with `Close = 100` and `Support = 200`, the stop is `199`, the risk
per share is `-99`, the RR division is evaluated with this negative denominator
(yielding `2`), and the row survives Layer 3 under the testing profile. -/
theorem layer3_negative_risk_survives :
    layer3_filter testingL3 [negRiskRow]
      = [{ symbol := "NEG", entry := 100, sl := 199, riskPerShare := -99,
           target := -98, rr := 2, riskPct := -99 }] ∧
    (deriveL3 negRiskRow).riskPerShare = -99 ∧
    (deriveL3 negRiskRow).rr = 2 := by
  refine ⟨?_, by norm_num [deriveL3, negRiskRow], by norm_num [deriveL3, negRiskRow]⟩
  norm_num [layer3_filter, deriveL3, negRiskRow, testingL3, List.filter_cons]

/-- C10: whenever the derived risk per share is nonzero, the reward:risk column
equals exactly `2` (since `Target = Entry + 2 * (Entry - SL)`), so the
`RR >= min_rr` filter keeps every such derived row — in particular every row
with positive risk per share — for any threshold at most `2`, covering the
testing (`1.2`) and relaxed (`1.8`) thresholds. -/
theorem layer3_rr_eq_two (F : Layer3Params) (rows : List Row) (r : Row)
    (hmin : F.minRR ≤ 2) (hne : (deriveL3 r).riskPerShare ≠ 0) :
    (deriveL3 r).rr = 2 ∧
    (r ∈ rows → deriveL3 r ∈ (rows.map deriveL3).filter (fun x => F.minRR ≤ x.rr)) := by
  have hrr : (deriveL3 r).rr = 2 := by
    simp only [deriveL3] at hne ⊢
    have h1 : r.close + 2 * (r.close - r.support * (995/1000)) - r.close
        = 2 * (r.close - r.support * (995/1000)) := by ring
    rw [h1, mul_div_assoc, div_self hne, mul_one]
  refine ⟨hrr, fun hmem => ?_⟩
  rw [List.mem_filter]
  constructor
  · exact List.mem_map_of_mem deriveL3 hmem
  · exact decide_eq_true (by rw [hrr]; exact hmin)

/-- Witness for `layer3_rr_eq_two` at a genuine breakout row
(`Close = 100`, `Support = 90`, testing thresholds). -/
theorem layer3_rr_eq_two_witness :
    (deriveL3 okRow).rr = 2 ∧
    deriveL3 okRow ∈ ([okRow].map deriveL3).filter (fun x => testingL3.minRR ≤ x.rr) :=
  ⟨(layer3_rr_eq_two testingL3 [okRow] okRow
      (by norm_num [testingL3]) (by norm_num [deriveL3, okRow])).1,
   (layer3_rr_eq_two testingL3 [okRow] okRow
      (by norm_num [testingL3]) (by norm_num [deriveL3, okRow])).2
     (List.mem_singleton.mpr rfl)⟩

/-- C4: for positive entry and positive risk per share (with nonnegative capital
and fractions), sizing returns `notional = quantity * entry ≤ capital * MPP`;
when the value cap does not bind, `quantity * (entry - sl) ≤ capital * RPT`;
when the caps conflict the quantity is recomputed as
`floor(max_position_value / entry)`; and the spec's end-to-end example
(capital 100000, risk 1 percent, cap 10 percent, entry 100, stop 95) yields
quantity 100 and notional 10000. -/
theorem calculate_position_size_caps (RPT MPP entry sl capital : ℚ)
    (he : 0 < entry) (hr : 0 < entry - sl) (hc : 0 ≤ capital)
    (hrpt : 0 ≤ RPT) (hmpp : 0 ≤ MPP) :
    ((calculate_position_size RPT MPP entry sl capital).2
      = ((calculate_position_size RPT MPP entry sl capital).1 : ℚ) * entry) ∧
    (calculate_position_size RPT MPP entry sl capital).2 ≤ capital * MPP ∧
    ((pyInt (capital * RPT / (entry - sl)) : ℚ) * entry ≤ capital * MPP →
      ((calculate_position_size RPT MPP entry sl capital).1 : ℚ) * (entry - sl)
        ≤ capital * RPT) ∧
    (capital * MPP < (pyInt (capital * RPT / (entry - sl)) : ℚ) * entry →
      (calculate_position_size RPT MPP entry sl capital).1
        = pyInt (capital * MPP / entry)) ∧
    calculate_position_size (1/100) (1/10) 100 95 100000 = (100, 10000) := by
  have hnr : ¬ (entry - sl ≤ 0) := not_le.mpr hr
  have hA : 0 ≤ capital * RPT / (entry - sl) := div_nonneg (mul_nonneg hc hrpt) hr.le
  have hB : 0 ≤ capital * MPP / entry := div_nonneg (mul_nonneg hc hmpp) he.le
  have hpyA : (pyInt (capital * RPT / (entry - sl)) : ℚ)
      = (⌊capital * RPT / (entry - sl)⌋ : ℚ) := by rw [pyInt, if_pos hA]
  have hpyB : (pyInt (capital * MPP / entry) : ℚ)
      = (⌊capital * MPP / entry⌋ : ℚ) := by rw [pyInt, if_pos hB]
  have hconcrete : calculate_position_size (1/100) (1/10) 100 95 100000 = (100, 10000) := by
    norm_num [calculate_position_size, pyInt]
  have hgen : ((calculate_position_size RPT MPP entry sl capital).2
      = ((calculate_position_size RPT MPP entry sl capital).1 : ℚ) * entry) ∧
      (calculate_position_size RPT MPP entry sl capital).2 ≤ capital * MPP ∧
      ((pyInt (capital * RPT / (entry - sl)) : ℚ) * entry ≤ capital * MPP →
        ((calculate_position_size RPT MPP entry sl capital).1 : ℚ) * (entry - sl)
          ≤ capital * RPT) ∧
      (capital * MPP < (pyInt (capital * RPT / (entry - sl)) : ℚ) * entry →
        (calculate_position_size RPT MPP entry sl capital).1
          = pyInt (capital * MPP / entry)) := by
    simp only [calculate_position_size, if_neg hnr]
    split_ifs with hcap
    · refine ⟨rfl, ?_, fun h3 => absurd h3 (not_le.mpr hcap), fun _ => rfl⟩
      show (pyInt (capital * MPP / entry) : ℚ) * entry ≤ capital * MPP
      calc (pyInt (capital * MPP / entry) : ℚ) * entry
          ≤ capital * MPP / entry * entry := by
            rw [hpyB]
            exact mul_le_mul_of_nonneg_right (Int.floor_le _) he.le
        _ = capital * MPP := div_mul_cancel₀ _ (ne_of_gt he)
    · refine ⟨rfl, not_lt.mp hcap, fun _ => ?_, fun h4 => absurd h4 hcap⟩
      show (pyInt (capital * RPT / (entry - sl)) : ℚ) * (entry - sl) ≤ capital * RPT
      calc (pyInt (capital * RPT / (entry - sl)) : ℚ) * (entry - sl)
          ≤ capital * RPT / (entry - sl) * (entry - sl) := by
            rw [hpyA]
            exact mul_le_mul_of_nonneg_right (Int.floor_le _) hr.le
        _ = capital * RPT := div_mul_cancel₀ _ (ne_of_gt hr)
  exact ⟨hgen.1, hgen.2.1, hgen.2.2.1, hgen.2.2.2, hconcrete⟩

/-- Witness for `calculate_position_size_caps`: the conflicting-caps branch at
the spec's end-to-end example recomputes the quantity from the value cap. -/
theorem calculate_position_size_caps_witness :
    (calculate_position_size (1/100) (1/10) 100 95 100000).1
      = pyInt ((100000 : ℚ) * (1/10) / 100) :=
  (calculate_position_size_caps (1/100) (1/10) 100 95 100000
    (by norm_num) (by norm_num) (by norm_num) (by norm_num) (by norm_num)).2.2.2.1
    (by norm_num [pyInt])

/-- C5: every emitted trade signal has first target at least the break-even
price `entry * (1 + charges/notional + 0.02)`; rows whose target falls below
it are skipped and produce no signal. -/
theorem signal_target_clears_breakeven (RPT MPP capital : ℚ) (rows : List ShortRow)
    (s : Signal) (hs : s ∈ generate_signals RPT MPP capital rows) :
    s.entry * (1 + s.charges / s.position + 2/100) ≤ s.t1 := by
  obtain ⟨row, hrow, heq⟩ := List.mem_filterMap.mp hs
  simp only [signal_of_row] at heq
  split_ifs at heq with hqty htarget
  injection heq with h
  subst h
  show row.entry * (1 + calculate_charges (calculate_position_size RPT MPP row.entry row.sl capital).2
      / (calculate_position_size RPT MPP row.entry row.sl capital).2 + 2/100) ≤ row.target
  have hmt := not_lt.mp htarget
  have hring :
      row.entry * (1 + calculate_charges (calculate_position_size RPT MPP row.entry row.sl capital).2
          / (calculate_position_size RPT MPP row.entry row.sl capital).2 * 100 / 100 + 2/100)
        = row.entry * (1 + calculate_charges (calculate_position_size RPT MPP row.entry row.sl capital).2
          / (calculate_position_size RPT MPP row.entry row.sl capital).2 + 2/100) := by
    ring
  rw [hring] at hmt
  exact hmt

/-- Evaluation of the signal generator on the witness row. -/
theorem generate_signals_row0 :
    generate_signals (1/100) (1/10) 100000 [row0] = [sig0] := by
  norm_num [generate_signals, signal_of_row, row0, sig0, calculate_position_size,
    calculate_charges, pyInt, pyRound2, pyRoundInt, min_def, List.filterMap]

/-- Witness for `signal_target_clears_breakeven` on the concrete signal `sig0`. -/
theorem signal_target_clears_breakeven_witness :
    sig0.entry * (1 + sig0.charges / sig0.position + 2/100) ≤ sig0.t1 :=
  signal_target_clears_breakeven (1/100) (1/10) 100000 [row0] sig0
    (by rw [generate_signals_row0]; exact List.mem_singleton.mpr rfl)

/-- C9: the allocation output is empty when there are no free slots, has size
`min(signal count, free slots)` otherwise, passes signals through unchanged when
within capacity, and when truncating every selected signal ranks at least as
high as every fully excluded one: its RR is at least the excluded signal's RR,
and on equal RR its net expectancy percent is at least the excluded one's. -/
theorem allocate_spec (max_trades active : ℤ) (signals : List Signal) :
    (max_trades - active ≤ 0 → allocate max_trades active signals = []) ∧
    (0 < max_trades - active →
      (allocate max_trades active signals).length
        = min signals.length (max_trades - active).toNat) ∧
    (0 < max_trades - active → signals.length ≤ (max_trades - active).toNat →
      allocate max_trades active signals = signals) ∧
    (∀ s ∈ allocate max_trades active signals, ∀ e ∈ signals,
      e ∉ allocate max_trades active signals →
        e.rr ≤ s.rr ∧ (e.rr = s.rr → e.netExpectancyPct ≤ s.netExpectancyPct)) := by
  refine ⟨fun h => by simp only [allocate]; rw [if_pos h], fun h => ?_, fun h hlen => ?_, ?_⟩
  · rw [allocate]
    simp only [if_neg (not_le.mpr h)]
    rw [select_top_trades]
    split_ifs with hlen
    · exact (Nat.min_eq_left hlen).symm
    · rw [List.length_take, List.length_insertionSort, Nat.min_comm]
  · rw [allocate]
    simp only [if_neg (not_le.mpr h)]
    rw [select_top_trades, if_pos hlen]
  · intro s hs e he hne
    by_cases havail : max_trades - active ≤ 0
    · rw [allocate] at hs
      simp only [if_pos havail] at hs
      exact absurd hs (List.not_mem_nil s)
    · rw [allocate] at hs hne
      simp only [if_neg havail] at hs hne
      rw [select_top_trades] at hs hne
      split_ifs at hs hne with hlen
      · exact absurd he hne
      · set N := (max_trades - active).toNat with hN
        set sorted := List.insertionSort rankLE signals with hsorted
        have hes : e ∈ sorted := (List.mem_insertionSort rankLE).mpr he
        have hesplit : e ∈ sorted.take N ++ sorted.drop N := by
          rw [List.take_append_drop]
          exact hes
        have hedrop : e ∈ sorted.drop N := by
          rcases List.mem_append.mp hesplit with h1 | h1
          · exact absurd h1 hne
          · exact h1
        have hpair : List.Pairwise rankLE (sorted.take N ++ sorted.drop N) := by
          rw [List.take_append_drop]
          exact List.sorted_insertionSort rankLE signals
        have hrel := (List.pairwise_append.mp hpair).2.2 s hs e hedrop
        rcases hrel with hlt | ⟨heqr, hle⟩
        · exact ⟨le_of_lt hlt, fun heq => absurd (heq ▸ hlt) (lt_irrefl s.rr)⟩
        · exact ⟨le_of_eq heqr, fun _ => hle⟩

/-- Witness for `allocate_spec`: with 2 free slots and 3 signals the output has
size `min 3 2`. -/
theorem allocate_spec_witness :
    (allocate 2 0 sigs3).length = min sigs3.length ((2 : ℤ) - 0).toNat :=
  (allocate_spec 2 0 sigs3).2.1 (by norm_num)

/-- Price refresh touches only the `Current` column. -/
theorem update_price_row_fields (prices : String → Option ℚ) (p : Position) :
    (update_price_row prices p).sl = p.sl ∧
    (update_price_row prices p).t1Hit = p.t1Hit ∧
    (update_price_row prices p).status = p.status := by
  rw [update_price_row]
  split_ifs
  · cases prices p.stock <;> exact ⟨rfl, rfl, rfl⟩
  · exact ⟨rfl, rfl, rfl⟩

/-- Days-held refresh touches only the `Days_Held` column. -/
theorem update_days_held_row_fields (days : String → ℤ) (p : Position) :
    (update_days_held_row days p).sl = p.sl ∧
    (update_days_held_row days p).t1Hit = p.t1Hit ∧
    (update_days_held_row days p).status = p.status := by
  rw [update_days_held_row]
  split_ifs <;> exact ⟨rfl, rfl, rfl⟩

/-- The pre-trigger refreshes preserve stop-loss, target flag and status. -/
theorem pre_step_fields (days : String → ℤ) (prices : String → Option ℚ) (p : Position) :
    (update_days_held_row days (calculate_pnl_row (update_price_row prices p))).sl = p.sl ∧
    (update_days_held_row days (calculate_pnl_row (update_price_row prices p))).t1Hit = p.t1Hit ∧
    (update_days_held_row days (calculate_pnl_row (update_price_row prices p))).status
      = p.status := by
  obtain ⟨h1, h2, h3⟩ := update_price_row_fields prices p
  obtain ⟨g1, g2, g3⟩ :=
    update_days_held_row_fields days (calculate_pnl_row (update_price_row prices p))
  refine ⟨?_, ?_, ?_⟩
  · rw [g1]; exact h1
  · rw [g2]; exact h2
  · rw [g3]; exact h3

/-- The trigger step never lowers the stop-loss. -/
theorem sl_le_step (p : Position) : p.sl ≤ ((step_position p).1).sl := by
  rw [step_position]
  by_cases hact : p.status = "ACTIVE"
  · rw [if_pos hact]
    by_cases hsl : p.current ≤ p.sl
    · rw [if_pos hsl]
    · rw [if_neg hsl]
      dsimp only
      split_ifs with ht hb hb
      · exact le_trans (le_of_lt hb.2) (le_max_left _ _)
      · exact le_max_left _ _
      · exact le_of_lt hb.2
      · exact le_rfl
  · rw [if_neg hact]

/-- One whole tracker tick never lowers a position's stop-loss. -/
theorem position_tick_sl (days : String → ℤ) (prices : String → Option ℚ) (p : Position) :
    p.sl ≤ ((position_tick days prices p).1).sl := by
  rw [position_tick]
  have h := sl_le_step (update_days_held_row days (calculate_pnl_row (update_price_row prices p)))
  rw [(pre_step_fields days prices p).1] at h
  exact h

/-- The table the tracker writes back is the per-position tick applied to every
row of the merged (prior + newly ingested) table, in order. -/
theorem tick_snd_eq (today : String) (days : String → ℤ) (prices : String → Option ℚ)
    (signals : List Signal) (tracker : List Position) :
    (tick today days prices signals tracker).2
      = (add_new_trades today signals tracker).map (fun q => (position_tick days prices q).1) := by
  simp only [tick, check_triggers, update_days_held, calculate_pnl, update_current_prices,
    position_tick, List.map_map]
  rfl

/-- C6: stop-loss is monotonically non-decreasing across ticks — no tick
transition assigns any position a stop-loss below its current one (in
particular after the breakeven lock or first-target rules have fired), and the
saved table is exactly the per-position transition mapped over the ledger. -/
theorem stop_loss_never_decreases (today : String) (days : String → ℤ)
    (prices : String → Option ℚ) (signals : List Signal) (tracker : List Position)
    (p : Position) :
    p.sl ≤ ((position_tick days prices p).1).sl ∧
    (tick today days prices signals tracker).2
      = (add_new_trades today signals tracker).map (fun q => (position_tick days prices q).1) :=
  ⟨position_tick_sl days prices p, tick_snd_eq today days prices signals tracker⟩

/-- The trigger step never clears the first-target flag. -/
theorem t1Hit_mono_step (p : Position) (h : p.t1Hit = true) :
    ((step_position p).1).t1Hit = true := by
  rw [step_position]
  by_cases hact : p.status = "ACTIVE"
  · rw [if_pos hact]
    by_cases hsl : p.current ≤ p.sl
    · rw [if_pos hsl]
      exact h
    · rw [if_neg hsl]
      dsimp only
      split_ifs with ht hb hb <;> first | rfl | exact h
  · rw [if_neg hact]
    exact h

/-- One whole tracker tick never clears the first-target flag. -/
theorem t1Hit_mono_tick (days : String → ℤ) (prices : String → Option ℚ) (p : Position)
    (h : p.t1Hit = true) : ((position_tick days prices p).1).t1Hit = true := by
  rw [position_tick]
  refine t1Hit_mono_step _ ?_
  rw [(pre_step_fields days prices p).2.1]
  exact h

/-- If the trigger step emits `T1_HIT` then the flag was clear before the step
and is set after it. -/
theorem t1fires_step (q : Position)
    (hmem : "T1_HIT" ∈ ((step_position q).2).map Action.rule) :
    q.t1Hit = false ∧ ((step_position q).1).t1Hit = true := by
  rw [step_position] at hmem ⊢
  by_cases hact : q.status = "ACTIVE"
  · rw [if_pos hact] at hmem ⊢
    by_cases hsl : q.current ≤ q.sl
    · rw [if_pos hsl] at hmem
      simp at hmem
    · rw [if_neg hsl] at hmem ⊢
      dsimp only at hmem ⊢
      by_cases ht : q.t1 ≤ q.current ∧ q.t1Hit = false
      · refine ⟨ht.2, ?_⟩
        rw [if_pos ht]
      · simp only [if_neg ht] at hmem
        exfalso
        by_cases hb : 3 ≤ q.pnlPct ∧ q.sl < q.entry <;>
          by_cases hm : 25 ≤ q.daysHeld <;>
            simp [hb, hm] at hmem
  · rw [if_neg hact] at hmem
    simp at hmem

/-- If a whole tick emits `T1_HIT` for `p` then `p`'s flag was clear before the
tick and is set after it. -/
theorem t1fires_tick (days : String → ℤ) (prices : String → Option ℚ) (p : Position)
    (h : t1fires days prices p) :
    p.t1Hit = false ∧ ((position_tick days prices p).1).t1Hit = true := by
  rw [t1fires, position_tick] at h
  obtain ⟨h1, h2⟩ := t1fires_step _ h
  rw [(pre_step_fields days prices p).2.1] at h1
  exact ⟨h1, h2⟩

/-- A set first-target flag stays set across any tick sequence. -/
theorem run_t1Hit_mono (inputs : List ((String → ℤ) × (String → Option ℚ)))
    (p : Position) (h : p.t1Hit = true) : (run inputs p).t1Hit = true := by
  induction inputs generalizing p with
  | nil => exact h
  | cons dp rest ih =>
    rw [run, List.foldl_cons]
    exact ih _ (t1Hit_mono_tick dp.1 dp.2 p h)

/-- C7: the first-target flag is never reset by a tick, and in any sequence of
ticks the `T1_HIT` rule fires for a given position on at most one step: once it
has fired at step `i`, it cannot fire again at any later step `j`. -/
theorem t1_hit_fires_at_most_once (days : String → ℤ) (prices : String → Option ℚ)
    (p : Position) (inputs : List ((String → ℤ) × (String → Option ℚ)))
    (p0 : Position) (i j : ℕ) :
    (p.t1Hit = true → ((position_tick days prices p).1).t1Hit = true) ∧
    (i < j → j < inputs.length → t1fires_at inputs p0 i → ¬ t1fires_at inputs p0 j) := by
  refine ⟨t1Hit_mono_tick days prices p, fun hij hj hfire hfirej => ?_⟩
  have hi : i < inputs.length := lt_trans hij hj
  have htake : inputs.take (i+1) = inputs.take i ++ [inputs.getD i dummy_input] := by
    rw [List.take_succ, List.getD_eq_getElem inputs dummy_input hi]
    simp [List.getElem?_eq_getElem hi]
  have hflag : (run (inputs.take (i+1)) p0).t1Hit = true := by
    rw [htake, run, List.foldl_append]
    exact (t1fires_tick _ _ _ hfire).2
  have hflagj : (run (inputs.take j) p0).t1Hit = true := by
    have h1 : inputs.take j
        = (inputs.take j).take (i+1) ++ (inputs.take j).drop (i+1) :=
      (List.take_append_drop _ _).symm
    have h2 : (inputs.take j).take (i+1) = inputs.take (i+1) := by
      rw [List.take_take, min_eq_left (Nat.succ_le_of_lt hij)]
    rw [h1, h2, run, List.foldl_append]
    exact run_t1Hit_mono _ _ hflag
  have := (t1fires_tick _ _ _ hfirej).1
  rw [hflagj] at this
  exact Bool.noConfusion this

/-- C8: for an `ACTIVE` position whose refreshed price is at or below the stop,
the step closes it with exactly the single action `SL_HIT` and changes nothing
else (no later rule runs this tick); a step only ever keeps the status or moves
`ACTIVE` to `CLOSED`; and a `CLOSED` position is terminal — a whole tick emits
no action for it and leaves it `CLOSED`. -/
theorem sl_hit_closes_and_closed_terminal (days : String → ℤ)
    (prices : String → Option ℚ) (p : Position) :
    (p.status = "ACTIVE" → p.current ≤ p.sl →
      (step_position p).1 = { p with status := "CLOSED" } ∧
      ((step_position p).2).map Action.rule = ["SL_HIT"]) ∧
    ((step_position p).1.status = p.status ∨
      (p.status = "ACTIVE" ∧ (step_position p).1.status = "CLOSED")) ∧
    (p.status = "CLOSED" →
      (position_tick days prices p).2 = [] ∧
      ((position_tick days prices p).1).status = "CLOSED") := by
  refine ⟨fun hact hsl => ?_, ?_, fun hclosed => ?_⟩
  · rw [step_position, if_pos hact, if_pos hsl]
    exact ⟨rfl, rfl⟩
  · rw [step_position]
    by_cases hact : p.status = "ACTIVE"
    · rw [if_pos hact]
      by_cases hsl : p.current ≤ p.sl
      · rw [if_pos hsl]
        exact Or.inr ⟨hact, rfl⟩
      · rw [if_neg hsl]
        dsimp only
        left
        split_ifs <;> rfl
    · rw [if_neg hact]
      exact Or.inl rfl
  · have hq : (update_days_held_row days (calculate_pnl_row (update_price_row prices p))).status
        = "CLOSED" := by
      rw [(pre_step_fields days prices p).2.2]
      exact hclosed
    have hqact : ¬ (update_days_held_row days (calculate_pnl_row
        (update_price_row prices p))).status = "ACTIVE" := by
      rw [hq]
      decide
    rw [position_tick, step_position, if_neg hqact]
    exact ⟨rfl, hq⟩

/-- Witness for `sl_hit_closes_and_closed_terminal`: the stop-hit step on a
concrete position emits exactly `SL_HIT`, and a concrete closed position gets
no actions from a tick. -/
theorem sl_hit_closes_and_closed_terminal_witness :
    ((step_position pSL).2).map Action.rule = ["SL_HIT"] ∧
    (position_tick dummy_input.1 dummy_input.2 pClosed).2 = [] :=
  ⟨((sl_hit_closes_and_closed_terminal dummy_input.1 dummy_input.2 pSL).1 rfl
      (by norm_num [pSL, posA])).2,
   ((sl_hit_closes_and_closed_terminal dummy_input.1 dummy_input.2 pClosed).2.2 rfl).1⟩

/-- Witness for `t1_hit_fires_at_most_once`: the rule fires on the first tick of
`tick_inputs` (price 115 crosses the 110 target), hence cannot fire on the
second, and a set flag survives a tick. -/
theorem t1_hit_fires_at_most_once_witness :
    ((position_tick dummy_input.1 dummy_input.2 pT1).1).t1Hit = true ∧
    ¬ t1fires_at tick_inputs posA 1 := by
  refine ⟨(t1_hit_fires_at_most_once dummy_input.1 dummy_input.2 pT1 tick_inputs posA 0 1).1 rfl,
    (t1_hit_fires_at_most_once dummy_input.1 dummy_input.2 pT1 tick_inputs posA 0 1).2
      (by norm_num) (by norm_num [tick_inputs]) ?_⟩
  norm_num [t1fires_at, t1fires, tick_inputs, dummy_input, run, position_tick,
    update_price_row, calculate_pnl_row, update_days_held_row, step_position, posA,
    pyRound2, pyRoundInt]

/-- C1 (counter-evidence): signal ingestion has no day/symbol key — running
`add_new_trades` a second time on the same day's one-signal batch appends a
second `ACTIVE` row for the same symbol, so re-ingestion is not a no-op and the
active-position set differs from a single run. -/
theorem add_new_trades_not_idempotent :
    ((add_new_trades "2026-10-12" [sig0] []).filter
        (fun p => p.status == "ACTIVE" && p.stock == sig0.stock)).length = 1 ∧
    ((add_new_trades "2026-10-12" [sig0] (add_new_trades "2026-10-12" [sig0] [])).filter
        (fun p => p.status == "ACTIVE" && p.stock == sig0.stock)).length = 2 := by
  constructor <;> rfl

/-- C2 (counter-evidence): a tick in which the only position hits its stop
leaves that row — now `CLOSED` — inside the one table `main` writes back to
`trade_tracker.csv`; the tracker produces no separate closed-trade ledger (no
code in the repository writes `trade_history.csv`, which reporting reads). -/
theorem tick_keeps_closed_row_in_tracker_table :
    ((tick "2026-10-12" (fun _ => 4) (fun _ => some 90) [] [posA]).2).map Position.status
      = ["CLOSED"] ∧
    ((tick "2026-10-12" (fun _ => 4) (fun _ => some 90) [] [posA]).1).map Action.rule
      = ["SL_HIT"] ∧
    ((tick "2026-10-12" (fun _ => 4) (fun _ => some 90) [] [posA]).2).length = 1 := by
  refine ⟨?_, ?_, rfl⟩ <;>
    norm_num [tick, check_triggers, update_days_held, calculate_pnl, update_current_prices,
      add_new_trades, update_days_held_row, calculate_pnl_row, update_price_row,
      step_position, posA, pyRound2, pyRoundInt]

end TradingSystem
